import Mathlib

/-!
Verification of the memoizing `Cacher` struct from
`src/the_rust_programming_language/functional_language_features.rs`.

The source defines

  struct Cacher<T: Fn(u32) -> u32> { calculation: T, value: Option<u32> }

  fn new(calculation: T) -> Cacher<T> { Cacher { calculation, value: None } }

  fn value(&mut self, arg: u32) -> u32 {
      match self.value {
          Some(v) => v,
          None => { let v = (self.calculation)(arg); self.value = Some(v); v }
      }
  }

We embed `u32` values as `Nat` (the struct performs no arithmetic of its
own; the stored closure is an arbitrary function, and the concrete closures
used below stay far below `2^32`, with wraparound written explicitly where
a closure multiplies). The `&mut self` method becomes explicit state
passing: `Cacher.value` returns the result together with the updated
struct. Rust lets a field and a method share the name `value`; Lean does
not, so the field is spelled `value?` here.
-/

/-- The squaring computation of the spec scenario (`square(5) = 25`),
with explicit `u32` wraparound. -/
def square (n : Nat) : Nat := n * n % 4294967296

/-- Embedding of `struct Cacher<T: Fn(u32)->u32>`: the stored closure and
the optional cached value. Field `value?` is the Rust field `value`. -/
structure Cacher where
  calculation : Nat → Nat
  value? : Option Nat

/-- Embedding of `Cacher::new`: stores the closure, cached value `None`. -/
def Cacher.new (calculation : Nat → Nat) : Cacher :=
  { calculation := calculation, value? := none }

/-- Embedding of `Cacher::value` (`&mut self` becomes explicit state
passing): on `Some v` return the cached `v` and leave the struct alone; on
`None` run the stored calculation on `arg`, cache and return the result. -/
def Cacher.value (c : Cacher) (arg : Nat) : Nat × Cacher :=
  match c.value? with
  | some v => (v, c)
  | none =>
    let v := c.calculation arg
    (v, { c with value? := some v })

/-- How many times `Cacher.value c arg` invokes the stored calculation:
once on a miss, zero times on a hit. This is the spec's invocation
counter incremented inside the computation function. -/
def Cacher.invocations (c : Cacher) (_arg : Nat) : Nat :=
  match c.value? with
  | some _ => 0
  | none => 1

/-- Run a sequence of `Cacher::value` calls, returning the list of results,
the final struct state, and the total number of calculation invocations. -/
def Cacher.runValues (c : Cacher) : List Nat → List Nat × Cacher × Nat
  | [] => ([], c, 0)
  | a :: rest =>
    let r := c.value a
    let t := r.2.runValues rest
    (r.1 :: t.1, t.2.1, c.invocations a + t.2.2)

/-- On a cache hit the call returns the cached value and the whole struct
is unchanged. -/
theorem value_hit (c : Cacher) (v : Nat) (arg : Nat) (h : c.value? = some v) :
    c.value arg = (v, c) := by
  simp [Cacher.value, h]

/-- On a cache miss the call returns `calculation arg` and stores it. -/
theorem value_miss (c : Cacher) (arg : Nat) (h : c.value? = none) :
    c.value arg = (c.calculation arg, { c with value? := some (c.calculation arg) }) := by
  simp [Cacher.value, h]

/-- After any call, the cached slot holds exactly the value returned. -/
theorem value_fills (c : Cacher) (arg : Nat) :
    ((c.value arg).2).value? = some ((c.value arg).1) := by
  cases h : c.value? with
  | some v => simp [Cacher.value, h]
  | none => simp [Cacher.value, h]

/-- A hit performs no invocation. -/
theorem invocations_hit (c : Cacher) (v : Nat) (arg : Nat) (h : c.value? = some v) :
    c.invocations arg = 0 := by
  simp [Cacher.invocations, h]

/-- A struct whose slot is filled is frozen: every sequence of calls
returns the cached value each time, leaves the struct unchanged, and never
invokes the calculation. -/
theorem runValues_frozen (c : Cacher) (v : Nat) (h : c.value? = some v) :
    ∀ args : List Nat, c.runValues args = (args.map (fun _ => v), c, 0) := by
  intro args
  induction args with
  | nil => simp [Cacher.runValues]
  | cons a rest ih =>
    simp [Cacher.runValues, value_hit c v a h, invocations_hit c v a h, ih]

/-- Claim C1 (amended): `value` returns `calculation(k)` only for the first
call on a fresh `Cacher`; once a value has been cached it is returned
regardless of the argument. In the end-to-end scenario, `value 5` on a
fresh `Cacher` over `square` returns `25`, and the subsequent `value 6`
returns the cached `25`, not `36`. -/
theorem C1_first_call_only (f : Nat → Nat) (k : Nat) :
    ((Cacher.new f).value k).1 = f k ∧
    ((Cacher.new square).value 5).1 = 25 ∧
    ((((Cacher.new square).value 5).2).value 6).1 = 25 := by
  refine ⟨?_, rfl, rfl⟩
  simp [Cacher.new, Cacher.value]

/-- Claim C1, counterexample to the claim as stated: after
`get_or_compute(5, square)` has returned `25`, the subsequent
`get_or_compute(6, square)` returns `25`, not the claimed `36 = square 6`. -/
theorem C1_counterexample :
    ((Cacher.new square).value 5).1 = 25 ∧
    ((((Cacher.new square).value 5).2).value 6).1 = 25 ∧
    ¬ ((((Cacher.new square).value 5).2).value 6).1 = 36 := by
  exact ⟨rfl, rfl, by decide⟩

/-- Claim C2 (amended): the calculation is invoked at most once over the
`Cacher`'s whole lifetime — exactly once by the first completed call and
zero times by every later call, regardless of which keys are requested;
it is not invoked once per distinct successful key. -/
theorem C2_at_most_one_invocation (f : Nat → Nat) (args : List Nat) :
    ((Cacher.new f).runValues args).2.2 = if args.isEmpty then 0 else 1 := by
  cases args with
  | nil => simp [Cacher.runValues]
  | cons a rest =>
    have hmiss : (Cacher.new f).value? = none := rfl
    have hfill : (((Cacher.new f).value a).2).value? = some (((Cacher.new f).value a).1) :=
      value_fills (Cacher.new f) a
    simp [Cacher.runValues, Cacher.invocations, hmiss,
      runValues_frozen (((Cacher.new f).value a).2) _ hfill rest]

/-- Claim C2, counterexample to the claim as stated: the calls
`value 1` then `value 2` on a fresh `Cacher` over the identity both
complete successfully (returning `[1, 1]`), yet the calculation was
invoked only once in total — not once for each of the two completed
keys, and zero times (not exactly once) for key `2`. -/
theorem C2_counterexample :
    ((Cacher.new (fun a => a)).runValues [1, 2]).1 = [1, 1] ∧
    ((Cacher.new (fun a => a)).runValues [1, 2]).2.2 = 1 ∧
    ¬ ((Cacher.new (fun a => a)).runValues [1, 2]).2.2 = 2 := by
  exact ⟨rfl, rfl, by decide⟩

/-- Claim C5: once a call has returned (observed) a value `v`, every
subsequent call — with any argument — returns that same `v`, performs no
further invocation of the calculation, and leaves the state unchanged. -/
theorem C5_consistency (c : Cacher) (a : Nat) (rest : List Nat) :
    (((c.value a).2).runValues rest).1 = rest.map (fun _ => (c.value a).1) ∧
    (((c.value a).2).runValues rest).2.2 = 0 ∧
    (((c.value a).2).runValues rest).2.1 = (c.value a).2 := by
  have h := runValues_frozen ((c.value a).2) ((c.value a).1) (value_fills c a) rest
  exact ⟨by simp [h], by simp [h], by simp [h]⟩

/-- Claim C6: once the entry is `Ready` (the `value` field holds
`Some v`), every sequence of subsequent operations returns `v` each time,
performs no invocation, and preserves the entire state — the entry never
returns to an empty or pending state and the stored value is preserved. -/
theorem C6_ready_is_permanent (c : Cacher) (v : Nat) (args : List Nat)
    (h : c.value? = some v) :
    c.runValues args = (args.map (fun _ => v), c, 0) :=
  runValues_frozen c v h args

/-- Claim C6 witness: a concrete `Ready` cacher (value `25`) run on three
further arguments returns `25` thrice and is unchanged. -/
theorem C6_witness :
    (Cacher.mk square (some 25)).runValues [1, 2, 3] =
      ([25, 25, 25], Cacher.mk square (some 25), 0) :=
  C6_ready_is_permanent (Cacher.mk square (some 25)) 25 [1, 2, 3] rfl

/-- Claim C7: after the first call `value a1` on a fresh `Cacher` (which
caches `f a1`), every subsequent call `value a2` — for every `a2`,
including `a2` different from `a1` — returns `f a1` without invoking the
calculation: the stored result is determined solely by the first argument
ever passed. -/
theorem C7_argument_ignored_after_first (f : Nat → Nat) (a1 a2 : Nat) :
    ((Cacher.new f).value a1).1 = f a1 ∧
    ((((Cacher.new f).value a1).2).value a2).1 = f a1 ∧
    (((Cacher.new f).value a1).2).invocations a2 = 0 := by
  refine ⟨by simp [Cacher.new, Cacher.value], ?_, ?_⟩
  · have h2 := value_hit (((Cacher.new f).value a1).2) (((Cacher.new f).value a1).1)
      a2 (value_fills (Cacher.new f) a1)
    simp [h2, Cacher.new, Cacher.value]
  · exact invocations_hit _ _ a2 (value_fills (Cacher.new f) a1)

/-- Claim C8: a lookup of an already-computed entry has no side effects:
when the `value` field is `Some v`, calling `value arg` returns `v` and
the entire struct — both the `value` field and the `calculation` field —
is unchanged. -/
theorem C8_hit_is_pure (c : Cacher) (v : Nat) (arg : Nat) (h : c.value? = some v) :
    c.value arg = (v, c) :=
  value_hit c v arg h

/-- Claim C8 witness: a hit on a concrete `Ready` cacher at argument `6`
returns the cached `25` and the identical struct. -/
theorem C8_witness :
    (Cacher.mk square (some 25)).value 6 = (25, Cacher.mk square (some 25)) :=
  C8_hit_is_pure (Cacher.mk square (some 25)) 25 6 rfl

/-- Claim C9: `value` is deterministic: two calls from equal states with
equal arguments return equal results and equal final states; and on any
fresh `Cacher` the published value for input `a` is always `f a`, with the
final state fully determined by `f` and `a`. -/
theorem C9_deterministic (c c' : Cacher) (a a' : Nat) (f : Nat → Nat)
    (h1 : c = c') (h2 : a = a') :
    c.value a = c'.value a' ∧
    ((Cacher.new f).value a).1 = f a ∧
    ((Cacher.new f).value a).2 = Cacher.mk f (some (f a)) := by
  subst h1; subst h2
  exact ⟨rfl, by simp [Cacher.new, Cacher.value], by simp [Cacher.new, Cacher.value]⟩

/-- Claim C9 witness: instantiated at the fresh `square` cacher and
argument `5`. -/
theorem C9_witness :
    (Cacher.new square).value 5 = (Cacher.new square).value 5 ∧
    ((Cacher.new square).value 5).1 = square 5 ∧
    ((Cacher.new square).value 5).2 = Cacher.mk square (some (square 5)) :=
  C9_deterministic (Cacher.new square) (Cacher.new square) 5 5 square rfl rfl

/-- Claim C10: the calculation is fixed at construction and immutable
thereafter: `new f` stores `f` in the `calculation` field; `value` never
changes that field; after a call the `value` field holds exactly the
returned result; and the result is the cached value on a hit and
`calculation arg` on a miss — so the only mutation any operation performs
is filling the `value` field with the calculation's result on a miss, and
no operation accepts a different computation function. -/
theorem C10_calculation_fixed (f : Nat → Nat) (c : Cacher) (arg : Nat) :
    (Cacher.new f).calculation = f ∧
    ((c.value arg).2).calculation = c.calculation ∧
    ((c.value arg).2).value? = some ((c.value arg).1) ∧
    (c.value arg).1 = (match c.value? with | some v => v | none => c.calculation arg) := by
  refine ⟨rfl, ?_, value_fills c arg, ?_⟩
  · cases h : c.value? with
    | some v => simp [Cacher.value, h]
    | none => simp [Cacher.value, h]
  · cases h : c.value? with
    | some v => simp [Cacher.value, h]
    | none => simp [Cacher.value, h]
